import Mathlib

/-!
Verification development for the LLM usage tracker's ingestion/sync engine.

The definitions below are a shallow embedding of the session parser
(`SessionParser` in the source) and the persistent store
(`DatabaseManager` in `electron/database.js`):

* JSON events are embedded as structures holding exactly the fields the
  code reads; a JavaScript field that may be absent (`undefined`/`null`)
  and is only used under a truthiness test is embedded as `Option _`, or
  as a `String`/`Nat` where the falsy value (`""` / `0`) behaves
  identically to absence in the code path in question.
* Timestamp strings are embedded as their epoch-millisecond values
  (`Int`), i.e. the result of `new Date(ts).getTime()`.
* JavaScript numbers used for money are embedded as `ℚ`.
* A line of a `.jsonl` file is `Option E`: `none` models a line whose
  `JSON.parse` throws (the code skips it and continues).
* The SQLite tables are embedded as association lists keyed by `path`,
  with `INSERT` appending and `UPDATE` replacing in place.
-/

/-- Association-list lookup, modelling `SELECT ... WHERE path = ?` /
`Map.get` on string keys. -/
def alookup {β : Type} : List (String × β) → String → Option β
  | [], _ => none
  | (k, v) :: rest, q => if k = q then some v else alookup rest q

/-- Character-list prefix test (helper for the substring test below). -/
def isPre : List Char → List Char → Bool
  | [], _ => true
  | _ :: _, [] => false
  | a :: as, b :: bs => (a == b) && isPre as bs

/-- Substring test on character lists (helper for `strContains`). -/
def subAux (needle : List Char) : List Char → Bool
  | [] => needle.isEmpty
  | c :: rest => isPre needle (c :: rest) || subAux needle rest

/-- `strContains s sub` models JavaScript `s.includes(sub)`. -/
def strContains (s sub : String) : Bool :=
  subAux sub.toList s.toList

/-- Per-million-token prices of a model (`ModelPricing` in the source). -/
structure ModelPricing where
  input : ℚ
  output : ℚ
deriving DecidableEq

/-- Model pricing table (`PRICING` in the source), as an ordered list so
that the key-iteration order of the JavaScript object is preserved. -/
def PRICING : List (String × ModelPricing) :=
  [ ("claude-sonnet-4-20250514", ⟨3, 15⟩),
    ("claude-3-5-sonnet-20241022", ⟨3, 15⟩),
    ("claude-3-5-sonnet-20240620", ⟨3, 15⟩),
    ("claude-3-opus-20240229", ⟨15, 75⟩),
    ("claude-3-haiku-20240307", ⟨(1 : ℚ)/4, (5 : ℚ)/4⟩),
    ("claude-opus-4-20250514", ⟨15, 75⟩),
    ("gpt-4o", ⟨(5 : ℚ)/2, 10⟩),
    ("gpt-4o-mini", ⟨(15 : ℚ)/100, (6 : ℚ)/10⟩),
    ("gpt-4-turbo", ⟨10, 30⟩),
    ("o1", ⟨15, 60⟩),
    ("o1-mini", ⟨(11 : ℚ)/10, (44 : ℚ)/10⟩),
    ("o3-mini", ⟨(11 : ℚ)/10, (44 : ℚ)/10⟩),
    ("gemini-2.0-flash", ⟨(1 : ℚ)/10, (4 : ℚ)/10⟩),
    ("gemini-1.5-pro", ⟨(125 : ℚ)/100, 5⟩),
    ("gemini-1.5-flash", ⟨(75 : ℚ)/1000, (3 : ℚ)/10⟩),
    ("default", ⟨3, 15⟩) ]

/-- `PRICING['default']`. -/
def pricingDefault : ModelPricing := ⟨3, 15⟩

/-- `getModelPricing` from the source: exact match, then
prefix/substring match over the table keys in order, then family
heuristics, then the default entry.  `none` models a `null` model and an
empty string is falsy in JavaScript, both giving the default. -/
def getModelPricing (model : Option String) : ModelPricing :=
  match model with
  | none => pricingDefault
  | some m =>
    if m = "" then pricingDefault
    else
      match alookup PRICING m with
      | some p => p
      | none =>
        match PRICING.find? (fun kv => m.startsWith kv.1 || strContains m kv.1) with
        | some kv => kv.2
        | none =>
          if strContains m "opus" then ⟨15, 75⟩
          else if strContains m "sonnet" then ⟨3, 15⟩
          else if strContains m "haiku" then ⟨(1 : ℚ)/4, (5 : ℚ)/4⟩
          else if strContains m "gpt-4o-mini" then ⟨(15 : ℚ)/100, (6 : ℚ)/10⟩
          else if strContains m "gpt-4o" then ⟨(5 : ℚ)/2, 10⟩
          else if strContains m "gemini" then ⟨(1 : ℚ)/10, (4 : ℚ)/10⟩
          else pricingDefault

/-- `calculateCost` from the source:
`(inputTokens / 1e6) * pricing.input + (outputTokens / 1e6) * pricing.output`. -/
def calculateCost (inputTokens outputTokens : Nat) (model : Option String) : ℚ :=
  let pricing := getModelPricing model
  let inputCost := ((inputTokens : ℚ) / 1000000) * pricing.input
  let outputCost := ((outputTokens : ℚ) / 1000000) * pricing.output
  inputCost + outputCost

/-- `SessionStats` from the source.  Timestamps are epoch milliseconds. -/
structure SessionStats where
  path : String
  provider : String
  sessionId : String
  project : Option String
  messages : Nat
  userMessages : Nat
  assistantMessages : Nat
  toolUses : Nat
  inputTokens : Nat
  outputTokens : Nat
  cacheReadTokens : Nat
  cacheCreationTokens : Nat
  costUsd : ℚ
  model : Option String
  firstMessage : Option Int
  lastMessage : Option Int
  duration : Int
deriving DecidableEq

/-- `extractProjectFromPath` from the source: split a cwd on the path
separator, drop empty segments, and keep the last two segments (or the
last one, or `"Unknown"`). -/
def extractProjectFromPath (cwdPath : String) : String :=
  let parts := (cwdPath.splitOn "/").filter (fun p => p ≠ "")
  if parts.length ≥ 2 then String.intercalate "/" (parts.drop (parts.length - 2))
  else
    match parts.getLast? with
    | some p => p
    | none => "Unknown"

/-! ### Provider A (claude) parser -/

/-- The usage object of a Provider A line
(`event.message?.usage || event.usage || {}`); `0` models an absent
counter, which the code's truthiness guards treat identically. -/
structure ClaudeUsage where
  input_tokens : Nat
  output_tokens : Nat
  cache_read_input_tokens : Nat
  cache_creation_input_tokens : Nat
deriving DecidableEq

/-- One successfully parsed line of a Provider A `.jsonl` file, holding
exactly the fields `parseClaudeSession` reads.  String fields use `""`
for an absent (falsy) value, matching each code path's truthiness use. -/
structure ClaudeEvent where
  /-- `event.type` -/
  etype : String
  /-- `event.message?.role` -/
  msgRole : String
  /-- `event.role` -/
  role : String
  /-- truthiness of `event.tool_use` -/
  toolUseField : Bool
  /-- `event.message?.content` is an array with a `tool_use` entry -/
  contentToolUse : Bool
  /-- `event.message?.usage || event.usage || {}` -/
  usage : ClaudeUsage
  /-- `event.costUsd` (`0` when absent) -/
  costUsd : ℚ
  /-- `event.timestamp || event.ts`, as epoch milliseconds -/
  ts : Option Int
  /-- `event.message?.model` -/
  msgModel : String
  /-- `event.model` -/
  model : String
deriving DecidableEq

/-- Role bookkeeping of the Provider A loop body. -/
def claudeCount (s : SessionStats) (e : ClaudeEvent) : SessionStats :=
  let eventType := e.etype
  let messageRole := if e.msgRole ≠ "" then e.msgRole else e.role
  if eventType = "user" ∨ messageRole = "user" then
    { s with userMessages := s.userMessages + 1 }
  else if eventType = "assistant" ∨ messageRole = "assistant" then
    { s with assistantMessages := s.assistantMessages + 1 }
  else s

/-- Tool-use bookkeeping of the Provider A loop body. -/
def claudeTool (s : SessionStats) (e : ClaudeEvent) : SessionStats :=
  if e.etype = "tool_use" ∨ e.toolUseField ∨ e.contentToolUse then
    { s with toolUses := s.toolUses + 1 }
  else s

/-- Token-usage accumulation of the Provider A loop body (each guard
mirrors a JavaScript truthiness test on the counter). -/
def claudeUsageUpd (s : SessionStats) (e : ClaudeEvent) : SessionStats :=
  let s := if e.usage.input_tokens ≠ 0 then
    { s with inputTokens := s.inputTokens + e.usage.input_tokens } else s
  let s := if e.usage.output_tokens ≠ 0 then
    { s with outputTokens := s.outputTokens + e.usage.output_tokens } else s
  let s := if e.usage.cache_read_input_tokens ≠ 0 then
    { s with cacheReadTokens := s.cacheReadTokens + e.usage.cache_read_input_tokens } else s
  if e.usage.cache_creation_input_tokens ≠ 0 then
    { s with cacheCreationTokens := s.cacheCreationTokens + e.usage.cache_creation_input_tokens }
  else s

/-- Embedded-cost accumulation of the Provider A loop body. -/
def claudeCostUpd (s : SessionStats) (e : ClaudeEvent) : SessionStats :=
  if e.costUsd ≠ 0 then { s with costUsd := s.costUsd + e.costUsd } else s

/-- Timestamp bookkeeping of the Provider A loop body. -/
def claudeTsUpd (s : SessionStats) (e : ClaudeEvent) : SessionStats :=
  match e.ts with
  | some t =>
    { s with
      firstMessage := if s.firstMessage.isNone then some t else s.firstMessage,
      lastMessage := some t }
  | none => s

/-- `event.message?.model || event.model`. -/
def claudeModelOf (e : ClaudeEvent) : String :=
  if e.msgModel ≠ "" then e.msgModel else e.model

/-- Model bookkeeping of the Provider A loop body. -/
def claudeModelUpd (s : SessionStats) (e : ClaudeEvent) : SessionStats :=
  if claudeModelOf e ≠ "" then { s with model := some (claudeModelOf e) } else s

/-- One iteration of the Provider A line loop (`stats.messages++`
followed by the bookkeeping statements, in source order). -/
def claudeStep (s : SessionStats) (e : ClaudeEvent) : SessionStats :=
  claudeModelUpd
    (claudeTsUpd
      (claudeCostUpd
        (claudeUsageUpd
          (claudeTool
            (claudeCount { s with messages := s.messages + 1 } e) e) e) e) e) e

/-- The zero-initialised Provider A record (`stats` before the loop). -/
def claudeInit (filePath : String) (project : Option String) (sessionId : String) :
    SessionStats :=
  { path := filePath, provider := "claude", sessionId := sessionId, project := project,
    messages := 0, userMessages := 0, assistantMessages := 0, toolUses := 0,
    inputTokens := 0, outputTokens := 0, cacheReadTokens := 0, cacheCreationTokens := 0,
    costUsd := 0, model := none, firstMessage := none, lastMessage := none, duration := 0 }

/-- `parseClaudeSession` from the source, over the list of per-line
parse attempts (`none` = invalid JSON line, skipped): the line loop,
then the cost fallback, then the duration computation. -/
def parseClaudeFile (filePath : String) (project : Option String) (sessionId : String)
    (lines : List (Option ClaudeEvent)) : SessionStats :=
  let s := (lines.filterMap id).foldl claudeStep (claudeInit filePath project sessionId)
  let s :=
    if s.costUsd = 0 ∧ (s.inputTokens > 0 ∨ s.outputTokens > 0) then
      { s with costUsd := calculateCost s.inputTokens s.outputTokens s.model }
    else s
  match s.firstMessage, s.lastMessage with
  | some a, some b => { s with duration := max 0 (b - a) }
  | _, _ => s

/-! ### Provider B (codex) parser -/

/-- The payload object of a Provider B `.jsonl` event. -/
structure CodexPayload where
  /-- `payload.type` (`""` when absent) -/
  ptype : String
  /-- `payload.role` -/
  role : String
  /-- `payload.cwd` -/
  cwd : String
  /-- `payload.model` -/
  model : String
  /-- `payload.info?.total_token_usage`, as
  `(input_tokens || 0, output_tokens || 0)` -/
  info : Option (Nat × Nat)
deriving DecidableEq

/-- One successfully parsed line of a Provider B `.jsonl` file. -/
structure CodexEvent where
  /-- `event.type` -/
  etype : String
  /-- `event.payload` (`none` when absent, i.e. falsy) -/
  payload : Option CodexPayload
  /-- `event.timestamp || event.created_at`, as epoch milliseconds -/
  ts : Option Int
deriving DecidableEq

/-- The zero-initialised Provider B record. -/
def codexInit (filePath sessionId : String) : SessionStats :=
  { path := filePath, provider := "codex", sessionId := sessionId, project := none,
    messages := 0, userMessages := 0, assistantMessages := 0, toolUses := 0,
    inputTokens := 0, outputTokens := 0, cacheReadTokens := 0, cacheCreationTokens := 0,
    costUsd := 0, model := none, firstMessage := none, lastMessage := none, duration := 0 }

/-- Bookkeeping for a `session_meta` event (project extraction from the
embedded cwd) in the Provider B loop body. -/
def codexMeta (s : SessionStats) (e : CodexEvent) : SessionStats :=
  match e.payload with
  | some p =>
    if e.etype = "session_meta" ∧ p.cwd ≠ "" then
      { s with project := some (extractProjectFromPath p.cwd) }
    else s
  | none => s

/-- Role bookkeeping for a `message` payload in the Provider B loop
body. -/
def codexMsgRole (s : SessionStats) (e : CodexEvent) : SessionStats :=
  match e.payload with
  | some p =>
    if p.ptype = "message" then
      if p.role = "user" then { s with userMessages := s.userMessages + 1 }
      else if p.role = "assistant" then { s with assistantMessages := s.assistantMessages + 1 }
      else s
    else s
  | none => s

/-- Role bookkeeping for `event_msg` events in the Provider B loop
body. -/
def codexEventMsgRole (s : SessionStats) (e : CodexEvent) : SessionStats :=
  match e.payload with
  | some p =>
    if e.etype = "event_msg" then
      if p.ptype = "user_message" then { s with userMessages := s.userMessages + 1 }
      else if p.ptype = "agent_message" then { s with assistantMessages := s.assistantMessages + 1 }
      else s
    else s
  | none => s

/-- The cumulative-counter update of the Provider B loop body: a
`token_count` event-message carrying totals replaces the loop-local
`(lastTotalInput, lastTotalOutput)` pair, anything else keeps it. -/
def codexTokens (t : Nat × Nat) (e : CodexEvent) : Nat × Nat :=
  match e.payload with
  | some p =>
    if e.etype = "event_msg" then
      match (if p.ptype = "token_count" then p.info else none) with
      | some u => (u.1, u.2)
      | none => t
    else t
  | none => t

/-- Model bookkeeping for `turn_context` events in the Provider B loop
body. -/
def codexModelUpd (s : SessionStats) (e : CodexEvent) : SessionStats :=
  match e.payload with
  | some p =>
    if e.etype = "turn_context" ∧ p.model ≠ "" then { s with model := some p.model }
    else s
  | none => s

/-- Timestamp bookkeeping of the Provider B loop body. -/
def codexTsUpd (s : SessionStats) (e : CodexEvent) : SessionStats :=
  match e.ts with
  | some t =>
    { s with
      firstMessage := if s.firstMessage.isNone then some t else s.firstMessage,
      lastMessage := some t }
  | none => s

/-- One iteration of the Provider B `.jsonl` line loop
(`stats.messages++` followed by the bookkeeping statements, in source
order).  The accumulator carries the stats record and the loop-local
`lastTotalInput` / `lastTotalOutput` cumulative counters. -/
def codexStep (acc : SessionStats × Nat × Nat) (e : CodexEvent) : SessionStats × Nat × Nat :=
  let s := { acc.1 with messages := acc.1.messages + 1 }
  let s := codexMeta s e
  let s := codexMsgRole s e
  let s := codexEventMsgRole s e
  let t := codexTokens acc.2 e
  let s := codexModelUpd s e
  let s := codexTsUpd s e
  (s, t)

/-- The `.jsonl` branch of `parseCodexSession`: the line loop, the final
assignment of the cumulative counters, and the cost computation. -/
def parseCodexJsonl (filePath sessionId : String) (lines : List (Option CodexEvent)) :
    SessionStats :=
  let r : SessionStats × Nat × Nat :=
    (lines.filterMap id).foldl codexStep (codexInit filePath sessionId, 0, 0)
  let s : SessionStats := { r.1 with inputTokens := r.2.1, outputTokens := r.2.2 }
  if s.inputTokens > 0 ∨ s.outputTokens > 0 then
    { s with costUsd := calculateCost s.inputTokens s.outputTokens s.model }
  else s

/-- One element of a whole-file JSON array in a non-`.jsonl` Provider B
file; only its `role` field is ever read. -/
structure CodexArrayMsg where
  role : String
deriving DecidableEq

/-- One iteration of the whole-file-array role loop of
`parseCodexSession`. -/
def codexArrayStep (s : SessionStats) (m : CodexArrayMsg) : SessionStats :=
  if m.role = "user" then { s with userMessages := s.userMessages + 1 }
  else if m.role = "assistant" then { s with assistantMessages := s.assistantMessages + 1 }
  else s

/-- The non-`.jsonl` branch of `parseCodexSession`, for a file whose
content parses as a JSON array: `messages` is the array length, roles
are counted, then the (vacuous) cost computation runs. -/
def parseCodexArray (filePath sessionId : String) (data : List CodexArrayMsg) :
    SessionStats :=
  let s := { codexInit filePath sessionId with messages := data.length }
  let s := data.foldl codexArrayStep s
  if s.inputTokens > 0 ∨ s.outputTokens > 0 then
    { s with costUsd := calculateCost s.inputTokens s.outputTokens s.model }
  else s

/-! ### Provider C (gemini) parser -/

/-- One successfully parsed line of a Provider C session file. -/
structure GeminiEvent where
  /-- `event.role` -/
  role : String
  /-- `event.usageMetadata`, as
  `(promptTokenCount || 0, candidatesTokenCount || 0)` -/
  usageMetadata : Option (Nat × Nat)
  /-- `event.model` (`""` when absent) -/
  model : String
deriving DecidableEq

/-- The Provider C record before the loop (note the default model). -/
def geminiInit (filePath sessionId : String) : SessionStats :=
  { path := filePath, provider := "gemini", sessionId := sessionId, project := none,
    messages := 0, userMessages := 0, assistantMessages := 0, toolUses := 0,
    inputTokens := 0, outputTokens := 0, cacheReadTokens := 0, cacheCreationTokens := 0,
    costUsd := 0, model := some "gemini-2.0-flash", firstMessage := none,
    lastMessage := none, duration := 0 }

/-- One iteration of the Provider C line loop. -/
def geminiStep (s : SessionStats) (e : GeminiEvent) : SessionStats :=
  let s := { s with messages := s.messages + 1 }
  let s :=
    if e.role = "user" then { s with userMessages := s.userMessages + 1 }
    else if e.role = "model" then { s with assistantMessages := s.assistantMessages + 1 }
    else s
  let s :=
    match e.usageMetadata with
    | some u => { s with inputTokens := s.inputTokens + u.1, outputTokens := s.outputTokens + u.2 }
    | none => s
  if e.model ≠ "" then { s with model := some e.model } else s

/-- `parseGeminiSession` from the source. -/
def parseGeminiFile (filePath sessionId : String) (lines : List (Option GeminiEvent)) :
    SessionStats :=
  let s := (lines.filterMap id).foldl geminiStep (geminiInit filePath sessionId)
  if s.inputTokens > 0 ∨ s.outputTokens > 0 then
    { s with costUsd := calculateCost s.inputTokens s.outputTokens s.model }
  else s

/-! ### Persistent store (`DatabaseManager`) -/

/-- A row of the `files` table (`FileTrackingRecord`). -/
structure FileRec where
  provider : String
  mtime : Int
  size : Int
  lastParsed : Int
deriving DecidableEq

/-- The store's two path-keyed tables. -/
structure Store where
  files : List (String × FileRec)
  sessions : List (String × SessionStats)
deriving DecidableEq

/-- `getFileRecord` from the source. -/
def getFileRecord (st : Store) (filePath : String) : Option FileRec :=
  alookup st.files filePath

/-- `needsUpdate` from the source: true when no record exists or the
stored mtime or size differs from the current one. -/
def needsUpdate (st : Store) (filePath : String) (currentMtime currentSize : Int) : Bool :=
  match getFileRecord st filePath with
  | none => true
  | some record => (record.mtime != currentMtime) || (record.size != currentSize)

/-- `getTrackedFiles` from the source. -/
def getTrackedFiles (provider : String) (st : Store) : List String :=
  (st.files.filter (fun kv => kv.2.provider = provider)).map Prod.fst

/-- `upsertSession` from the source: `UPDATE ... WHERE path` when a row
exists, else `INSERT` (appending the new row). -/
def upsertSession (session : SessionStats) (st : Store) : Store :=
  match alookup st.sessions session.path with
  | some _ =>
    { st with sessions :=
        st.sessions.map (fun kv => if kv.1 = session.path then (kv.1, session) else kv) }
  | none => { st with sessions := st.sessions ++ [(session.path, session)] }

/-- `upsertFileRecord` from the source: the `UPDATE` branch only sets
`mtime`, `size` and `last_parsed` (keeping the stored provider). -/
def upsertFileRecord (filePath provider : String) (mtime size now : Int) (st : Store) :
    Store :=
  match alookup st.files filePath with
  | some _ =>
    { st with files :=
        st.files.map (fun kv =>
          if kv.1 = filePath then
            (kv.1, { kv.2 with mtime := mtime, size := size, lastParsed := now })
          else kv) }
  | none => { st with files := st.files ++ [(filePath, ⟨provider, mtime, size, now⟩)] }

/-- Both `DELETE` statements of the cleanup loop body. -/
def deleteFileAndSession (filePath : String) (st : Store) : Store :=
  { files := st.files.filter (fun kv => kv.1 ≠ filePath),
    sessions := st.sessions.filter (fun kv => kv.1 ≠ filePath) }

/-- The loop of `cleanupDeletedFiles`, over the pre-computed tracked
list. -/
def cleanupLoop (existing : List String) (tracked : List String) (st : Store)
    (count : Nat) : Store × Nat :=
  match tracked with
  | [] => (st, count)
  | p :: rest =>
    if p ∈ existing then cleanupLoop existing rest st count
    else cleanupLoop existing rest (deleteFileAndSession p st) (count + 1)

/-- `cleanupDeletedFiles` from the source. -/
def cleanupDeletedFiles (provider : String) (existing : List String) (st : Store) :
    Store × Nat :=
  cleanupLoop existing (getTrackedFiles provider st) st 0

/-! ### Sync orchestrator -/

/-- The stat data of one discovered candidate file. -/
structure FSMeta where
  path : String
  mtime : Int
  size : Int
deriving DecidableEq

/-- The result record of `syncProvider`. -/
structure SyncResult where
  added : Nat
  updated : Nat
  deleted : Nat
deriving DecidableEq

/-- The per-candidate body of the `syncProvider` loop.  `parse` is the
provider's format parser applied to a path (the file contents are fixed
during a sync, so the dispatch of the source's `switch` is a function of
the path); the accumulator carries the store and the `added`/`updated`
counters. -/
def processFile (parse : String → SessionStats) (provider : String) (now : Int)
    (acc : Store × Nat × Nat) (f : FSMeta) : Store × Nat × Nat :=
  if needsUpdate acc.1 f.path f.mtime f.size then
    let session := parse f.path
    if session.messages > 0 then
      let isNew := (getFileRecord acc.1 f.path).isNone
      let st := upsertFileRecord f.path provider f.mtime f.size now
        (upsertSession session acc.1)
      if isNew then (st, acc.2.1 + 1, acc.2.2) else (st, acc.2.1, acc.2.2 + 1)
    else acc
  else acc

/-- `syncProvider` from the source: the missing-directory early return,
the per-candidate loop, then deletion cleanup against the set of
currently existing paths. -/
def syncProvider (parse : String → SessionStats) (provider : String) (dirExists : Bool)
    (files : List FSMeta) (now : Int) (st : Store) : Store × SyncResult :=
  if dirExists then
    let existing := files.map FSMeta.path
    let r := files.foldl (processFile parse provider now) (st, 0, 0)
    let c := cleanupDeletedFiles provider existing r.1
    (c.1, ⟨r.2.1, r.2.2, c.2⟩)
  else (st, ⟨0, 0, 0⟩)

/-! ### Store reads and the in-process cache -/

/-- Comparison used to model `ORDER BY last_message DESC` (SQLite sorts
`NULL` below every value, so `NULL`s come last under `DESC`). -/
def olege (x y : Option Int) : Bool :=
  match x, y with
  | none, _ => true
  | some _, none => false
  | some a, some b => a ≤ b

/-- `DatabaseManager.getSessions`: the provider's session rows, ordered
by `last_message` descending with `NULL`s last. -/
def storeGetSessions (provider : String) (st : Store) : List SessionStats :=
  ((st.sessions.map Prod.snd).filter (fun s => s.provider = provider)).mergeSort
    (fun a b => olege b.lastMessage a.lastMessage)

/-- The in-process state of the `SessionParser` object: the per-provider
snapshot cache, the `lastSyncTime` stamp (set by `syncAll`), and the
store. -/
structure ParserState where
  cache : List (String × List SessionStats)
  lastSyncTime : Int
  store : Store
deriving DecidableEq

/-- `syncInterval` from the source (milliseconds). -/
def syncInterval : Int := 5000

/-- `Map.set` on the snapshot cache. -/
def cacheSet (provider : String) (sessions : List SessionStats)
    (cache : List (String × List SessionStats)) : List (String × List SessionStats) :=
  match alookup cache provider with
  | some _ => cache.map (fun kv => if kv.1 = provider then (kv.1, sessions) else kv)
  | none => cache ++ [(provider, sessions)]

/-- The non-cached tail of `getSessions`: the missing-directory early
return, else a fresh `syncProvider`, a store read, and the snapshot
refresh. -/
def getSessionsSync (parse : String → SessionStats) (provider : String) (dirExists : Bool)
    (files : List FSMeta) (now : Int) (ps : ParserState) : List SessionStats × ParserState :=
  if dirExists then
    let st := (syncProvider parse provider dirExists files now ps.store).1
    let sessions := storeGetSessions provider st
    (sessions, { ps with store := st, cache := cacheSet provider sessions ps.cache })
  else ([], ps)

/-- `getSessions` from the source: serve the in-process snapshot when
one exists and the last sync is within the debounce window, else fall
through to `getSessionsSync`. -/
def getSessionsM (parse : String → SessionStats) (provider : String) (dirExists : Bool)
    (files : List FSMeta) (now : Int) (ps : ParserState) : List SessionStats × ParserState :=
  match alookup ps.cache provider with
  | some snap =>
    if now - ps.lastSyncTime < syncInterval then (snap, ps)
    else getSessionsSync parse provider dirExists files now ps
  | none => getSessionsSync parse provider dirExists files now ps

/-! ### Recent-sessions assembly of `getAllUsage` -/

/-- The sort key of the recent-sessions sort:
`a.lastMessage ? new Date(a.lastMessage).getTime() : 0`. -/
def recentKey (s : SessionStats) : Int :=
  s.lastMessage.getD 0

/-- The `recentSessions` assembly of `getAllUsage`, over the three
per-provider session lists read from the store: pool the first 10 of
each, sort the pool by `recentKey` descending, truncate to 20. -/
def recentSessions (claudeSessions codexSessions geminiSessions : List SessionStats) :
    List SessionStats :=
  let pool := claudeSessions.take 10 ++ codexSessions.take 10 ++ geminiSessions.take 10
  (pool.mergeSort (fun a b => recentKey b ≤ recentKey a)).take 20

/-- `getAllUsage().recentSessions` as a function of the store. -/
def recentSessionsOfStore (st : Store) : List SessionStats :=
  recentSessions (storeGetSessions "claude" st) (storeGetSessions "codex" st)
    (storeGetSessions "gemini" st)

/-! ### Statement vocabulary: values extracted from input files -/

/-- Sum of the `input_tokens` usage fields over the successfully parsed
lines of a Provider A file. -/
def claudeInSum (lines : List (Option ClaudeEvent)) : Nat :=
  ((lines.filterMap id).map (fun e => e.usage.input_tokens)).sum

/-- Sum of the `output_tokens` usage fields over the successfully parsed
lines of a Provider A file. -/
def claudeOutSum (lines : List (Option ClaudeEvent)) : Nat :=
  ((lines.filterMap id).map (fun e => e.usage.output_tokens)).sum

/-- Sum of the embedded `costUsd` fields over the successfully parsed
lines of a Provider A file. -/
def claudeCostSum (lines : List (Option ClaudeEvent)) : ℚ :=
  ((lines.filterMap id).map (fun e => e.costUsd)).sum

/-- The timestamps of the timestamped events of a Provider A file, in
file order. -/
def claudeTsVals (lines : List (Option ClaudeEvent)) : List Int :=
  (lines.filterMap id).filterMap ClaudeEvent.ts

/-- The cumulative token totals carried by a Provider B event, when it
is a `token_count` event-message carrying totals. -/
def extractTokenCount (e : CodexEvent) : Option (Nat × Nat) :=
  if e.etype = "event_msg" then
    e.payload.bind (fun p => if p.ptype = "token_count" then p.info else none)
  else none

/-- The running totals carried by the `token_count` events of a Provider
B `.jsonl` file, in file order. -/
def tokenCountValues (lines : List (Option CodexEvent)) : List (Nat × Nat) :=
  (lines.filterMap id).filterMap extractTokenCount

/-! ### Concrete example inputs -/

/-- A Provider B `token_count` event-message carrying cumulative totals. -/
def codexTokenEv (i o : Nat) : CodexEvent :=
  ⟨"event_msg", some ⟨"token_count", "", "", "", some (i, o)⟩, none⟩

/-- The spec's cumulative-counter example file: running totals 100/50,
250/120, 400/200. -/
def exCodexCumulative : List (Option CodexEvent) :=
  [some (codexTokenEv 100 50), some (codexTokenEv 250 120), some (codexTokenEv 400 200)]

/-- A Provider A assistant line carrying incremental usage. -/
def claudeUsageEv (i o : Nat) : ClaudeEvent :=
  ⟨"assistant", "", "", false, false, ⟨i, o, 0, 0⟩, 0, none, "", ""⟩

/-- The spec's additive-counter example file: usage lines 10/5, 20/8,
5/2. -/
def exClaudeAdditive : List (Option ClaudeEvent) :=
  [some (claudeUsageEv 10 5), some (claudeUsageEv 20 8), some (claudeUsageEv 5 2)]

/-- A Provider A line carrying only a timestamp. -/
def claudeTsEv (t : Int) : ClaudeEvent :=
  ⟨"", "", "", false, false, ⟨0, 0, 0, 0⟩, 0, some t, "", ""⟩

/-- A two-event timestamped Provider A file (epoch millis 1000, 4000). -/
def exClaudeTimed : List (Option ClaudeEvent) :=
  [some (claudeTsEv 1000), some (claudeTsEv 4000)]

/-- A Provider B line carrying only a timestamp. -/
def codexTsEv (t : Int) : CodexEvent :=
  ⟨"response_item", none, some t⟩

/-- A two-event timestamped Provider B `.jsonl` file (epoch millis 1000,
3000). -/
def exCodexTimed : List (Option CodexEvent) :=
  [some (codexTsEv 1000), some (codexTsEv 3000)]

/-- A parser stub returning a fixed one-message record for every path
(used to instantiate sync theorems at concrete inputs). -/
def exParse : String → SessionStats :=
  fun p => { claudeInit p none "sid" with messages := 1, userMessages := 1 }

/-- A parser stub returning a zero-message record for every path. -/
def exParseZero : String → SessionStats :=
  fun p => claudeInit p none "sid"

/-- Two discovered candidate files. -/
def exFiles : List FSMeta := [⟨"/a", 1, 2⟩, ⟨"/b", 3, 4⟩]

/-- The empty store. -/
def exStore0 : Store := ⟨[], []⟩

/-- A session record with a given `lastMessage` timestamp. -/
def exSess (t : Int) : SessionStats :=
  { claudeInit "/x" none "s" with messages := 1, lastMessage := some t }

/-- A stored Provider A session used by the `getSessions` examples. -/
def exSessionClaude : SessionStats :=
  { claudeInit "/c" none "s" with messages := 2, lastMessage := some 10 }

/-- A parser state with no snapshot, a stale `lastSyncTime`, and a store
already holding one Provider A session. -/
def exPS9 : ParserState :=
  ⟨[], 0, ⟨[("/c", ⟨"claude", 1, 1, 1⟩)], [("/c", exSessionClaude)]⟩⟩

/-- A parser state holding a fresh in-process snapshot for Provider A. -/
def exPS9b : ParserState :=
  ⟨[("claude", [exSessionClaude])], 0, ⟨[("/c", ⟨"claude", 1, 1, 1⟩)], [("/c", exSessionClaude)]⟩⟩

/-- A candidate file is inert for a sync pass over a store: either its
tracking record already matches its stat data, or its parse yields zero
messages (and is therefore never stored). -/
def goodFile (parse : String -> SessionStats) (st : Store) (f : FSMeta) : Prop :=
  needsUpdate st f.path f.mtime f.size = false \/ (parse f.path).messages = 0

/-! ### General helper lemmas -/

theorem add_guard_nat (m n : Nat) : (if n ≠ 0 then m + n else m) = m + n := by
  by_cases h : n = 0
  · simp [h]
  · simp [h]

theorem add_guard_rat (q c : ℚ) : (if c ≠ 0 then q + c else q) = q + c := by
  by_cases h : c = 0
  · simp [h]
  · simp [h]

theorem getLast?_cons_char {α : Type} (t : α) (l : List α) :
    (t :: l).getLast? = match l.getLast? with | some u => some u | none => some t := by
  cases l with
  | nil => rfl
  | cons u l =>
    rw [List.getLast?_cons_cons, List.getLast?_eq_getLast (u :: l) (by simp)]

theorem getLast?_cons_getD {α : Type} (u x : α) (l : List α) :
    ((u :: l).getLast?).getD x = (l.getLast?).getD u := by
  rw [getLast?_cons_char]
  cases l.getLast? <;> rfl

theorem alookup_append_ne {β : Type} (l : List (String × β)) (p q : String) (v : β)
    (h : p ≠ q) : alookup (l ++ [(p, v)]) q = alookup l q := by
  induction l with
  | nil => simp [alookup, h]
  | cons kv rest ih =>
    by_cases hk : kv.1 = q
    · simp [alookup, hk]
    · simp [alookup, hk, ih]

theorem alookup_append_self {β : Type} (l : List (String × β)) (p : String) (v : β)
    (h : alookup l p = none) : alookup (l ++ [(p, v)]) p = some v := by
  induction l with
  | nil => simp [alookup]
  | cons kv rest ih =>
    by_cases hk : kv.1 = p
    · simp [alookup, hk] at h
    · simp [alookup, hk] at h ⊢
      exact ih h

theorem alookup_map_update_self {β : Type} (l : List (String × β)) (p : String)
    (g : β → β) :
    alookup (l.map (fun kv => if kv.1 = p then (kv.1, g kv.2) else kv)) p
      = (alookup l p).map g := by
  induction l with
  | nil => simp [alookup]
  | cons kv rest ih =>
    obtain ⟨k, v⟩ := kv
    rw [List.map_cons]
    simp only []
    by_cases hk : k = p
    · subst hk
      rw [if_pos rfl]
      simp [alookup, ih]
    · rw [if_neg hk]
      simp [alookup, hk, ih]

theorem alookup_map_update_ne {β : Type} (l : List (String × β)) (p q : String)
    (g : β → β) (h : q ≠ p) :
    alookup (l.map (fun kv => if kv.1 = p then (kv.1, g kv.2) else kv)) q
      = alookup l q := by
  induction l with
  | nil => simp [alookup]
  | cons kv rest ih =>
    obtain ⟨k, v⟩ := kv
    rw [List.map_cons]
    simp only []
    by_cases hk : k = p
    · subst hk
      rw [if_pos rfl]
      simp [alookup, Ne.symm h, ih]
    · rw [if_neg hk]
      simp [alookup, ih]

theorem alookup_filter_ne {β : Type} (l : List (String × β)) (p q : String)
    (h : p ≠ q) :
    alookup (l.filter (fun kv => kv.1 ≠ q)) p = alookup l p := by
  induction l with
  | nil => simp [alookup]
  | cons kv rest ih =>
    obtain ⟨k, v⟩ := kv
    rw [List.filter_cons]
    by_cases hk : k = q
    · subst hk
      rw [if_neg (by simp)]
      rw [ih]
      have hkp : ¬(k = p) := fun hh => h hh.symm
      simp [alookup, hkp]
    · rw [if_pos (by simp [hk])]
      simp only [ne_eq, decide_not] at ih
      simp [alookup, ih]

theorem mem_filter_key_ne {β : Type} (l : List (String × β)) (q : String) (r : β) :
    (q, r) ∉ l.filter (fun kv => kv.1 ≠ q) := by
  intro hmem
  have := (List.mem_filter.mp hmem).2
  simp at this

/-! ### Provider A component projections -/

theorem claudeCount_proj (s : SessionStats) (e : ClaudeEvent) :
    (claudeCount s e).inputTokens = s.inputTokens ∧
    (claudeCount s e).outputTokens = s.outputTokens ∧
    (claudeCount s e).costUsd = s.costUsd ∧
    (claudeCount s e).model = s.model ∧
    (claudeCount s e).firstMessage = s.firstMessage ∧
    (claudeCount s e).lastMessage = s.lastMessage := by
  simp only [claudeCount]
  repeat' split
  all_goals exact ⟨rfl, rfl, rfl, rfl, rfl, rfl⟩

theorem claudeTool_proj (s : SessionStats) (e : ClaudeEvent) :
    (claudeTool s e).inputTokens = s.inputTokens ∧
    (claudeTool s e).outputTokens = s.outputTokens ∧
    (claudeTool s e).costUsd = s.costUsd ∧
    (claudeTool s e).model = s.model ∧
    (claudeTool s e).firstMessage = s.firstMessage ∧
    (claudeTool s e).lastMessage = s.lastMessage := by
  simp only [claudeTool]
  split
  all_goals exact ⟨rfl, rfl, rfl, rfl, rfl, rfl⟩

theorem claudeUsageUpd_proj (s : SessionStats) (e : ClaudeEvent) :
    (claudeUsageUpd s e).inputTokens = s.inputTokens + e.usage.input_tokens ∧
    (claudeUsageUpd s e).outputTokens = s.outputTokens + e.usage.output_tokens ∧
    (claudeUsageUpd s e).costUsd = s.costUsd ∧
    (claudeUsageUpd s e).model = s.model ∧
    (claudeUsageUpd s e).firstMessage = s.firstMessage ∧
    (claudeUsageUpd s e).lastMessage = s.lastMessage := by
  simp only [claudeUsageUpd]
  repeat' split
  all_goals simp_all

theorem claudeCostUpd_proj (s : SessionStats) (e : ClaudeEvent) :
    (claudeCostUpd s e).inputTokens = s.inputTokens ∧
    (claudeCostUpd s e).outputTokens = s.outputTokens ∧
    (claudeCostUpd s e).costUsd = s.costUsd + e.costUsd ∧
    (claudeCostUpd s e).model = s.model ∧
    (claudeCostUpd s e).firstMessage = s.firstMessage ∧
    (claudeCostUpd s e).lastMessage = s.lastMessage := by
  simp only [claudeCostUpd]
  split
  all_goals simp_all

theorem claudeTsUpd_proj (s : SessionStats) (e : ClaudeEvent) :
    (claudeTsUpd s e).inputTokens = s.inputTokens ∧
    (claudeTsUpd s e).outputTokens = s.outputTokens ∧
    (claudeTsUpd s e).costUsd = s.costUsd ∧
    (claudeTsUpd s e).model = s.model ∧
    (claudeTsUpd s e).firstMessage =
      (match e.ts with
       | some t => if s.firstMessage.isNone then some t else s.firstMessage
       | none => s.firstMessage) ∧
    (claudeTsUpd s e).lastMessage =
      (match e.ts with
       | some t => some t
       | none => s.lastMessage) := by
  unfold claudeTsUpd
  cases e.ts
  all_goals exact ⟨rfl, rfl, rfl, rfl, rfl, rfl⟩

theorem claudeModelUpd_proj (s : SessionStats) (e : ClaudeEvent) :
    (claudeModelUpd s e).inputTokens = s.inputTokens ∧
    (claudeModelUpd s e).outputTokens = s.outputTokens ∧
    (claudeModelUpd s e).costUsd = s.costUsd ∧
    (claudeModelUpd s e).firstMessage = s.firstMessage ∧
    (claudeModelUpd s e).lastMessage = s.lastMessage := by
  simp only [claudeModelUpd]
  split
  all_goals exact ⟨rfl, rfl, rfl, rfl, rfl⟩

/-! ### Provider A step and fold lemmas -/

theorem claudeStep_inputTokens (s : SessionStats) (e : ClaudeEvent) :
    (claudeStep s e).inputTokens = s.inputTokens + e.usage.input_tokens := by
  unfold claudeStep
  rw [(claudeModelUpd_proj _ e).1, (claudeTsUpd_proj _ e).1, (claudeCostUpd_proj _ e).1,
    (claudeUsageUpd_proj _ e).1, (claudeTool_proj _ e).1, (claudeCount_proj _ e).1]

theorem claudeStep_outputTokens (s : SessionStats) (e : ClaudeEvent) :
    (claudeStep s e).outputTokens = s.outputTokens + e.usage.output_tokens := by
  unfold claudeStep
  rw [(claudeModelUpd_proj _ e).2.1, (claudeTsUpd_proj _ e).2.1, (claudeCostUpd_proj _ e).2.1,
    (claudeUsageUpd_proj _ e).2.1, (claudeTool_proj _ e).2.1, (claudeCount_proj _ e).2.1]

theorem claudeStep_costUsd (s : SessionStats) (e : ClaudeEvent) :
    (claudeStep s e).costUsd = s.costUsd + e.costUsd := by
  unfold claudeStep
  rw [(claudeModelUpd_proj _ e).2.2.1, (claudeTsUpd_proj _ e).2.2.1, (claudeCostUpd_proj _ e).2.2.1,
    (claudeUsageUpd_proj _ e).2.2.1, (claudeTool_proj _ e).2.2.1, (claudeCount_proj _ e).2.2.1]

theorem claudeStep_firstMessage (s : SessionStats) (e : ClaudeEvent) :
    (claudeStep s e).firstMessage =
      (match e.ts with
       | some t => if s.firstMessage.isNone then some t else s.firstMessage
       | none => s.firstMessage) := by
  have hX : (claudeCostUpd (claudeUsageUpd (claudeTool
      (claudeCount { s with messages := s.messages + 1 } e) e) e) e).firstMessage
      = s.firstMessage := by
    rw [(claudeCostUpd_proj _ e).2.2.2.2.1, (claudeUsageUpd_proj _ e).2.2.2.2.1,
      (claudeTool_proj _ e).2.2.2.2.1, (claudeCount_proj _ e).2.2.2.2.1]
  unfold claudeStep
  rw [(claudeModelUpd_proj _ e).2.2.2.1, (claudeTsUpd_proj _ e).2.2.2.2.1, hX]

theorem claudeStep_lastMessage (s : SessionStats) (e : ClaudeEvent) :
    (claudeStep s e).lastMessage =
      (match e.ts with
       | some t => some t
       | none => s.lastMessage) := by
  unfold claudeStep
  rw [(claudeModelUpd_proj _ e).2.2.2.2, (claudeTsUpd_proj _ e).2.2.2.2.2]
  rw [(claudeCostUpd_proj _ e).2.2.2.2.2, (claudeUsageUpd_proj _ e).2.2.2.2.2,
    (claudeTool_proj _ e).2.2.2.2.2, (claudeCount_proj _ e).2.2.2.2.2]

theorem claude_fold_inputTokens (es : List ClaudeEvent) (s : SessionStats) :
    (es.foldl claudeStep s).inputTokens
      = s.inputTokens + (es.map (fun e => e.usage.input_tokens)).sum := by
  induction es generalizing s with
  | nil => simp
  | cons e rest ih =>
    rw [List.foldl_cons, ih, claudeStep_inputTokens]
    simp [Nat.add_assoc]

theorem claude_fold_outputTokens (es : List ClaudeEvent) (s : SessionStats) :
    (es.foldl claudeStep s).outputTokens
      = s.outputTokens + (es.map (fun e => e.usage.output_tokens)).sum := by
  induction es generalizing s with
  | nil => simp
  | cons e rest ih =>
    rw [List.foldl_cons, ih, claudeStep_outputTokens]
    simp [Nat.add_assoc]

theorem claude_fold_costUsd (es : List ClaudeEvent) (s : SessionStats) :
    (es.foldl claudeStep s).costUsd = s.costUsd + (es.map (fun e => e.costUsd)).sum := by
  induction es generalizing s with
  | nil => simp
  | cons e rest ih =>
    rw [List.foldl_cons, ih, claudeStep_costUsd]
    simp [add_assoc]

theorem claude_fold_firstMessage_some (es : List ClaudeEvent) (s : SessionStats) (t : Int)
    (h : s.firstMessage = some t) : (es.foldl claudeStep s).firstMessage = some t := by
  induction es generalizing s with
  | nil => exact h
  | cons e rest ih =>
    rw [List.foldl_cons]
    apply ih
    rw [claudeStep_firstMessage, h]
    cases e.ts <;> rfl

theorem claude_fold_firstMessage_none (es : List ClaudeEvent) (s : SessionStats)
    (h : s.firstMessage = none) :
    (es.foldl claudeStep s).firstMessage = (es.filterMap ClaudeEvent.ts).head? := by
  induction es generalizing s with
  | nil => simp [h]
  | cons e rest ih =>
    rw [List.foldl_cons]
    cases hts : e.ts with
    | none =>
      rw [List.filterMap_cons_none hts, ih]
      rw [claudeStep_firstMessage, hts, h]
    | some t =>
      rw [List.filterMap_cons_some hts, List.head?_cons]
      apply claude_fold_firstMessage_some
      rw [claudeStep_firstMessage, hts, h]
      rfl

theorem claude_fold_lastMessage (es : List ClaudeEvent) (s : SessionStats) :
    (es.foldl claudeStep s).lastMessage =
      (match (es.filterMap ClaudeEvent.ts).getLast? with
       | some t => some t
       | none => s.lastMessage) := by
  induction es generalizing s with
  | nil => simp
  | cons e rest ih =>
    rw [List.foldl_cons, ih]
    cases hts : e.ts with
    | none =>
      rw [List.filterMap_cons_none hts, claudeStep_lastMessage, hts]
    | some t =>
      rw [List.filterMap_cons_some hts, claudeStep_lastMessage, hts,
        getLast?_cons_char]
      cases (rest.filterMap ClaudeEvent.ts).getLast? <;> rfl

theorem parseClaudeFile_shape (f : String) (pr : Option String) (sid : String)
    (lines : List (Option ClaudeEvent)) :
    ∃ c d, parseClaudeFile f pr sid lines
      = { (lines.filterMap id).foldl claudeStep (claudeInit f pr sid) with
          costUsd := c, duration := d } := by
  unfold parseClaudeFile
  dsimp only
  split
  all_goals split
  all_goals exact ⟨_, _, rfl⟩

/-! ### Provider A derived lemmas -/

theorem parseClaudeFile_cost_fallback (f : String) (pr : Option String) (sid : String)
    (lines : List (Option ClaudeEvent))
    (h : ((lines.filterMap id).foldl claudeStep (claudeInit f pr sid)).costUsd = 0 ∧
         (((lines.filterMap id).foldl claudeStep (claudeInit f pr sid)).inputTokens > 0 ∨
          ((lines.filterMap id).foldl claudeStep (claudeInit f pr sid)).outputTokens > 0)) :
    (parseClaudeFile f pr sid lines).costUsd =
      calculateCost ((lines.filterMap id).foldl claudeStep (claudeInit f pr sid)).inputTokens
        ((lines.filterMap id).foldl claudeStep (claudeInit f pr sid)).outputTokens
        ((lines.filterMap id).foldl claudeStep (claudeInit f pr sid)).model := by
  unfold parseClaudeFile
  dsimp only
  rw [if_pos h]
  split <;> rfl

/-- Claim C3: `needsUpdate` returns true exactly when no tracking record
exists for the path or the stored mtime or size differs from the current
one (in particular it never inspects file content). -/
theorem claim_C3_needsUpdate_iff (st : Store) (p : String) (m sz : Int) :
    needsUpdate st p m sz = true ↔
      (getFileRecord st p = none ∨
        ∃ r, getFileRecord st p = some r ∧ (r.mtime ≠ m ∨ r.size ≠ sz)) := by
  unfold needsUpdate
  cases h : getFileRecord st p with
  | none => simp
  | some r => simp [bne_iff_ne]

/-- Claim C2: the Provider A parser sums `input_tokens` and
`output_tokens` over all successfully parsed lines; on the spec's 10/5,
20/8, 5/2 example the stored totals are 35 and 15. -/
theorem claim_C2_additive_tokens :
    (∀ (f : String) (pr : Option String) (sid : String) (lines : List (Option ClaudeEvent)),
      (parseClaudeFile f pr sid lines).inputTokens = claudeInSum lines ∧
      (parseClaudeFile f pr sid lines).outputTokens = claudeOutSum lines) ∧
    ((parseClaudeFile "f" none "s" exClaudeAdditive).inputTokens = 35 ∧
     (parseClaudeFile "f" none "s" exClaudeAdditive).outputTokens = 15) := by
  constructor
  · intro f pr sid lines
    obtain ⟨c, d, hs⟩ := parseClaudeFile_shape f pr sid lines
    rw [hs]
    constructor
    · show ((lines.filterMap id).foldl claudeStep (claudeInit f pr sid)).inputTokens
        = claudeInSum lines
      rw [claude_fold_inputTokens]
      simp [claudeInit, claudeInSum]
    · show ((lines.filterMap id).foldl claudeStep (claudeInit f pr sid)).outputTokens
        = claudeOutSum lines
      rw [claude_fold_outputTokens]
      simp [claudeInit, claudeOutSum]
  · exact ⟨by decide, by decide⟩

/-- Claim C8: when a Provider A file has no embedded cost but nonzero
summed tokens, the stored cost is
`inputTokens/1e6 * inputPerMillion + outputTokens/1e6 * outputPerMillion`
with the prices resolved by the pricing lookup on the record's last-seen
model. -/
theorem claim_C8_cost_fallback (f : String) (pr : Option String) (sid : String)
    (lines : List (Option ClaudeEvent))
    (hc : claudeCostSum lines = 0)
    (ht : claudeInSum lines > 0 ∨ claudeOutSum lines > 0) :
    (parseClaudeFile f pr sid lines).costUsd =
      ((parseClaudeFile f pr sid lines).inputTokens : ℚ) / 1000000
          * (getModelPricing (parseClaudeFile f pr sid lines).model).input
        + ((parseClaudeFile f pr sid lines).outputTokens : ℚ) / 1000000
          * (getModelPricing (parseClaudeFile f pr sid lines).model).output := by
  have h1 : ((lines.filterMap id).foldl claudeStep (claudeInit f pr sid)).costUsd = 0 := by
    rw [claude_fold_costUsd]
    simpa [claudeInit, claudeCostSum] using hc
  have h2 : ((lines.filterMap id).foldl claudeStep (claudeInit f pr sid)).inputTokens
      = claudeInSum lines := by
    rw [claude_fold_inputTokens]
    simp [claudeInit, claudeInSum]
  have h3 : ((lines.filterMap id).foldl claudeStep (claudeInit f pr sid)).outputTokens
      = claudeOutSum lines := by
    rw [claude_fold_outputTokens]
    simp [claudeInit, claudeOutSum]
  have hcost := parseClaudeFile_cost_fallback f pr sid lines
    ⟨h1, by rw [h2, h3]; exact ht⟩
  obtain ⟨c, d, hs⟩ := parseClaudeFile_shape f pr sid lines
  rw [hcost, hs]
  rfl

/-- Witness for C8 at the concrete 10/5, 20/8, 5/2 example file. -/
theorem claim_C8_cost_fallback_witness :
    claudeCostSum exClaudeAdditive = 0 ∧
    (claudeInSum exClaudeAdditive > 0 ∨ claudeOutSum exClaudeAdditive > 0) ∧
    (parseClaudeFile "f" none "s" exClaudeAdditive).costUsd =
      ((parseClaudeFile "f" none "s" exClaudeAdditive).inputTokens : ℚ) / 1000000
          * (getModelPricing (parseClaudeFile "f" none "s" exClaudeAdditive).model).input
        + ((parseClaudeFile "f" none "s" exClaudeAdditive).outputTokens : ℚ) / 1000000
          * (getModelPricing (parseClaudeFile "f" none "s" exClaudeAdditive).model).output :=
  ⟨by simp [claudeCostSum, exClaudeAdditive, claudeUsageEv, List.filterMap_cons], Or.inl (by decide),
    claim_C8_cost_fallback "f" none "s" exClaudeAdditive
      (by simp [claudeCostSum, exClaudeAdditive, claudeUsageEv, List.filterMap_cons]) (Or.inl (by decide))⟩


/-! ### Provider B step and fold lemmas -/

theorem codexTokens_eq_extract (t : Nat × Nat) (e : CodexEvent) :
    codexTokens t e = (extractTokenCount e).getD t := by
  unfold codexTokens extractTokenCount
  rcases e.payload with _ | p
  · by_cases he : e.etype = "event_msg" <;> simp [he]
  · by_cases he : e.etype = "event_msg"
    · rcases hi : (if p.ptype = "token_count" then p.info else none) with _ | u <;>
        simp [he, hi]
    · simp [he]

theorem codexMeta_duration (s : SessionStats) (e : CodexEvent) :
    (codexMeta s e).duration = s.duration := by
  unfold codexMeta
  rcases e.payload with _ | p
  · rfl
  · repeat' split
    all_goals rfl

theorem codexMsgRole_duration (s : SessionStats) (e : CodexEvent) :
    (codexMsgRole s e).duration = s.duration := by
  unfold codexMsgRole
  rcases e.payload with _ | p
  · rfl
  · repeat' split
    all_goals rfl

theorem codexEventMsgRole_duration (s : SessionStats) (e : CodexEvent) :
    (codexEventMsgRole s e).duration = s.duration := by
  unfold codexEventMsgRole
  rcases e.payload with _ | p
  · rfl
  · repeat' split
    all_goals rfl

theorem codexModelUpd_duration (s : SessionStats) (e : CodexEvent) :
    (codexModelUpd s e).duration = s.duration := by
  unfold codexModelUpd
  rcases e.payload with _ | p
  · rfl
  · repeat' split
    all_goals rfl

theorem codexTsUpd_duration (s : SessionStats) (e : CodexEvent) :
    (codexTsUpd s e).duration = s.duration := by
  unfold codexTsUpd
  rcases e.ts with _ | t <;> rfl

theorem codexStep_snd (acc : SessionStats × Nat × Nat) (e : CodexEvent) :
    (codexStep acc e).2 = (extractTokenCount e).getD acc.2 := by
  show codexTokens acc.2 e = _
  exact codexTokens_eq_extract acc.2 e

theorem codexStep_duration (acc : SessionStats × Nat × Nat) (e : CodexEvent) :
    (codexStep acc e).1.duration = acc.1.duration := by
  show (codexTsUpd (codexModelUpd (codexEventMsgRole (codexMsgRole
    (codexMeta { acc.1 with messages := acc.1.messages + 1 } e) e) e) e) e).duration = _
  rw [codexTsUpd_duration, codexModelUpd_duration, codexEventMsgRole_duration,
    codexMsgRole_duration, codexMeta_duration]

theorem codex_fold_snd (es : List CodexEvent) (acc : SessionStats × Nat × Nat) :
    (es.foldl codexStep acc).2 = ((es.filterMap extractTokenCount).getLast?).getD acc.2 := by
  induction es generalizing acc with
  | nil => simp
  | cons e rest ih =>
    rw [List.foldl_cons, ih]
    rcases hx : extractTokenCount e with _ | u
    · rw [List.filterMap_cons_none hx, codexStep_snd, hx]
      rfl
    · rw [List.filterMap_cons_some hx, codexStep_snd, hx, getLast?_cons_getD]
      rfl

theorem codex_fold_duration (es : List CodexEvent) (acc : SessionStats × Nat × Nat) :
    (es.foldl codexStep acc).1.duration = acc.1.duration := by
  induction es generalizing acc with
  | nil => rfl
  | cons e rest ih =>
    rw [List.foldl_cons, ih, codexStep_duration]

theorem parseCodexJsonl_tokens (f sid : String) (lines : List (Option CodexEvent)) :
    ((parseCodexJsonl f sid lines).inputTokens, (parseCodexJsonl f sid lines).outputTokens)
      = ((tokenCountValues lines).getLast?).getD (0, 0) := by
  unfold parseCodexJsonl
  dsimp only
  split
  all_goals rw [Prod.mk.eta, codex_fold_snd]
  all_goals rfl

theorem parseCodexJsonl_duration_zero (f sid : String) (lines : List (Option CodexEvent)) :
    (parseCodexJsonl f sid lines).duration = 0 := by
  unfold parseCodexJsonl
  dsimp only
  split
  all_goals
    show (List.foldl codexStep (codexInit f sid, 0, 0) (lines.filterMap id)).1.duration = 0
    rw [codex_fold_duration]
  all_goals rfl

/-- Claim C1: the Provider B `.jsonl` parser treats token counts as
cumulative — the stored totals are the values carried by the last
`token_count` event (and 0/0 when there is none), not a sum; on the
spec's 100/50, 250/120, 400/200 example the stored totals are 400 and
200. -/
theorem claim_C1_cumulative_tokens :
    (∀ (f sid : String) (lines : List (Option CodexEvent)),
      ((parseCodexJsonl f sid lines).inputTokens, (parseCodexJsonl f sid lines).outputTokens)
        = ((tokenCountValues lines).getLast?).getD (0, 0)) ∧
    ((tokenCountValues exCodexCumulative).getLast? = some (400, 200) ∧
     (parseCodexJsonl "f" "s" exCodexCumulative).inputTokens = 400 ∧
     (parseCodexJsonl "f" "s" exCodexCumulative).outputTokens = 200) :=
  ⟨parseCodexJsonl_tokens, by decide, by decide, by decide⟩

/-! ### Provider B whole-file-array lemmas -/

theorem codexArrayStep_frame (s : SessionStats) (m : CodexArrayMsg) :
    (codexArrayStep s m).messages = s.messages ∧
    (codexArrayStep s m).inputTokens = s.inputTokens ∧
    (codexArrayStep s m).outputTokens = s.outputTokens ∧
    (codexArrayStep s m).costUsd = s.costUsd ∧
    (codexArrayStep s m).model = s.model ∧
    (codexArrayStep s m).firstMessage = s.firstMessage ∧
    (codexArrayStep s m).lastMessage = s.lastMessage ∧
    (codexArrayStep s m).duration = s.duration := by
  unfold codexArrayStep
  repeat' split
  all_goals exact ⟨rfl, rfl, rfl, rfl, rfl, rfl, rfl, rfl⟩

theorem codexArrayStep_user (s : SessionStats) (m : CodexArrayMsg) :
    (codexArrayStep s m).userMessages =
      if m.role = "user" then s.userMessages + 1 else s.userMessages := by
  unfold codexArrayStep
  by_cases h : m.role = "user"
  · rw [if_pos h, if_pos h]
  · rw [if_neg h, if_neg h]
    split <;> rfl

theorem codexArrayStep_assistant (s : SessionStats) (m : CodexArrayMsg) :
    (codexArrayStep s m).assistantMessages =
      if m.role = "assistant" then s.assistantMessages + 1 else s.assistantMessages := by
  unfold codexArrayStep
  by_cases h : m.role = "user"
  · rw [if_pos h, if_neg (by rw [h]; decide)]
  · rw [if_neg h]
    split <;> rfl

theorem codexArray_fold_frame (data : List CodexArrayMsg) (s : SessionStats) :
    (data.foldl codexArrayStep s).messages = s.messages ∧
    (data.foldl codexArrayStep s).inputTokens = s.inputTokens ∧
    (data.foldl codexArrayStep s).outputTokens = s.outputTokens ∧
    (data.foldl codexArrayStep s).costUsd = s.costUsd ∧
    (data.foldl codexArrayStep s).model = s.model ∧
    (data.foldl codexArrayStep s).firstMessage = s.firstMessage ∧
    (data.foldl codexArrayStep s).lastMessage = s.lastMessage ∧
    (data.foldl codexArrayStep s).duration = s.duration := by
  induction data generalizing s with
  | nil => exact ⟨rfl, rfl, rfl, rfl, rfl, rfl, rfl, rfl⟩
  | cons m rest ih =>
    rw [List.foldl_cons]
    obtain ⟨h1, h2, h3, h4, h5, h6, h7, h8⟩ := ih (codexArrayStep s m)
    obtain ⟨g1, g2, g3, g4, g5, g6, g7, g8⟩ := codexArrayStep_frame s m
    exact ⟨h1.trans g1, h2.trans g2, h3.trans g3, h4.trans g4, h5.trans g5,
      h6.trans g6, h7.trans g7, h8.trans g8⟩

theorem codexArray_fold_user (data : List CodexArrayMsg) (s : SessionStats) :
    (data.foldl codexArrayStep s).userMessages
      = s.userMessages + (data.filter (fun m => m.role = "user")).length := by
  induction data generalizing s with
  | nil => simp
  | cons m rest ih =>
    rw [List.foldl_cons, ih, List.filter_cons, codexArrayStep_user]
    by_cases h : m.role = "user"
    · rw [if_pos h, if_pos (by simp [h])]
      simp [Nat.add_assoc, Nat.add_comm]
    · rw [if_neg h, if_neg (by simp [h])]

theorem codexArray_fold_assistant (data : List CodexArrayMsg) (s : SessionStats) :
    (data.foldl codexArrayStep s).assistantMessages
      = s.assistantMessages + (data.filter (fun m => m.role = "assistant")).length := by
  induction data generalizing s with
  | nil => simp
  | cons m rest ih =>
    rw [List.foldl_cons, ih, List.filter_cons, codexArrayStep_assistant]
    by_cases h : m.role = "assistant"
    · rw [if_pos h, if_pos (by simp [h])]
      simp [Nat.add_assoc, Nat.add_comm]
    · rw [if_neg h, if_neg (by simp [h])]

theorem parseCodexArray_facts (f sid : String) (data : List CodexArrayMsg) :
    (parseCodexArray f sid data).messages = data.length ∧
    (parseCodexArray f sid data).userMessages
      = (data.filter (fun m => m.role = "user")).length ∧
    (parseCodexArray f sid data).assistantMessages
      = (data.filter (fun m => m.role = "assistant")).length ∧
    (parseCodexArray f sid data).inputTokens = 0 ∧
    (parseCodexArray f sid data).outputTokens = 0 ∧
    (parseCodexArray f sid data).costUsd = 0 ∧
    (parseCodexArray f sid data).model = none ∧
    (parseCodexArray f sid data).firstMessage = none ∧
    (parseCodexArray f sid data).lastMessage = none ∧
    (parseCodexArray f sid data).duration = 0 := by
  have base := codexArray_fold_frame data { codexInit f sid with messages := data.length }
  have hcond : ¬((data.foldl codexArrayStep { codexInit f sid with messages := data.length }).inputTokens > 0 ∨
      (data.foldl codexArrayStep { codexInit f sid with messages := data.length }).outputTokens > 0) := by
    rw [base.2.1, base.2.2.1]
    simp [codexInit]
  unfold parseCodexArray
  dsimp only
  rw [if_neg hcond]
  refine ⟨base.1, ?_, ?_, base.2.1, base.2.2.1, base.2.2.2.1, base.2.2.2.2.1,
    base.2.2.2.2.2.1, base.2.2.2.2.2.2.1, base.2.2.2.2.2.2.2⟩
  · rw [codexArray_fold_user]
    simp [codexInit]
  · rw [codexArray_fold_assistant]
    simp [codexInit]

/-- Claim C10: the whole-file-array branch of the Provider B parser only
extracts the message count and the per-role counts; tokens, cost, model
and both timestamps are never populated. -/
theorem claim_C10_codex_array (f sid : String) (data : List CodexArrayMsg) :
    (parseCodexArray f sid data).messages = data.length ∧
    (parseCodexArray f sid data).userMessages
      = (data.filter (fun m => m.role = "user")).length ∧
    (parseCodexArray f sid data).assistantMessages
      = (data.filter (fun m => m.role = "assistant")).length ∧
    (parseCodexArray f sid data).inputTokens = 0 ∧
    (parseCodexArray f sid data).outputTokens = 0 ∧
    (parseCodexArray f sid data).costUsd = 0 ∧
    (parseCodexArray f sid data).model = none ∧
    (parseCodexArray f sid data).firstMessage = none ∧
    (parseCodexArray f sid data).lastMessage = none := by
  obtain ⟨h1, h2, h3, h4, h5, h6, h7, h8, h9, _⟩ := parseCodexArray_facts f sid data
  exact ⟨h1, h2, h3, h4, h5, h6, h7, h8, h9⟩

/-! ### Provider C lemmas -/

theorem geminiStep_frame (s : SessionStats) (e : GeminiEvent) :
    (geminiStep s e).duration = s.duration ∧
    (geminiStep s e).firstMessage = s.firstMessage ∧
    (geminiStep s e).lastMessage = s.lastMessage := by
  unfold geminiStep
  dsimp only
  repeat' split
  all_goals exact ⟨rfl, rfl, rfl⟩

theorem gemini_fold_frame (es : List GeminiEvent) (s : SessionStats) :
    (es.foldl geminiStep s).duration = s.duration ∧
    (es.foldl geminiStep s).firstMessage = s.firstMessage ∧
    (es.foldl geminiStep s).lastMessage = s.lastMessage := by
  induction es generalizing s with
  | nil => exact ⟨rfl, rfl, rfl⟩
  | cons e rest ih =>
    rw [List.foldl_cons]
    obtain ⟨h1, h2, h3⟩ := ih (geminiStep s e)
    obtain ⟨g1, g2, g3⟩ := geminiStep_frame s e
    exact ⟨h1.trans g1, h2.trans g2, h3.trans g3⟩

theorem parseGeminiFile_frame (f sid : String) (lines : List (Option GeminiEvent)) :
    (parseGeminiFile f sid lines).duration = 0 ∧
    (parseGeminiFile f sid lines).firstMessage = none ∧
    (parseGeminiFile f sid lines).lastMessage = none := by
  have h := gemini_fold_frame (lines.filterMap id) (geminiInit f sid)
  unfold parseGeminiFile
  dsimp only
  split
  all_goals exact ⟨h.1.trans rfl, h.2.1.trans rfl, h.2.2.trans rfl⟩

/-! ### Duration lemmas and claim C5 -/

theorem parseClaudeFile_duration (f : String) (pr : Option String) (sid : String)
    (lines : List (Option ClaudeEvent)) (a b : Int)
    (hfa : ((lines.filterMap id).foldl claudeStep (claudeInit f pr sid)).firstMessage = some a)
    (hlb : ((lines.filterMap id).foldl claudeStep (claudeInit f pr sid)).lastMessage = some b) :
    (parseClaudeFile f pr sid lines).duration = max 0 (b - a) := by
  unfold parseClaudeFile
  dsimp only
  have h1 : ∀ c : ℚ,
      (if ((lines.filterMap id).foldl claudeStep (claudeInit f pr sid)).costUsd = 0 ∧
          (((lines.filterMap id).foldl claudeStep (claudeInit f pr sid)).inputTokens > 0 ∨
           ((lines.filterMap id).foldl claudeStep (claudeInit f pr sid)).outputTokens > 0) then
        { (lines.filterMap id).foldl claudeStep (claudeInit f pr sid) with costUsd := c }
      else (lines.filterMap id).foldl claudeStep (claudeInit f pr sid)).firstMessage = some a := by
    intro c
    split
    · exact hfa
    · exact hfa
  have h2 : ∀ c : ℚ,
      (if ((lines.filterMap id).foldl claudeStep (claudeInit f pr sid)).costUsd = 0 ∧
          (((lines.filterMap id).foldl claudeStep (claudeInit f pr sid)).inputTokens > 0 ∨
           ((lines.filterMap id).foldl claudeStep (claudeInit f pr sid)).outputTokens > 0) then
        { (lines.filterMap id).foldl claudeStep (claudeInit f pr sid) with costUsd := c }
      else (lines.filterMap id).foldl claudeStep (claudeInit f pr sid)).lastMessage = some b := by
    intro c
    split
    · exact hlb
    · exact hlb
  split
  next a2 b2 heq1 heq2 =>
    rw [h1 _] at heq1
    rw [h2 _] at heq2
    injection heq1 with e1
    injection heq2 with e2
    rw [e1, e2]
  next hno =>
    exact (hno a b (h1 _) (h2 _)).elim

/-- Claim C5 (amended): only the Provider A parser derives
`duration = max(0, last − first)` from the file's timestamps; the
Provider B and Provider C parsers always return `duration = 0`
(Provider B records first/last timestamps but never derives a duration,
Provider C never reads timestamps at all). -/
theorem claim_C5_duration_amended :
    (∀ (f : String) (pr : Option String) (sid : String) (lines : List (Option ClaudeEvent)),
      claudeTsVals lines ≠ [] →
      (parseClaudeFile f pr sid lines).firstMessage = (claudeTsVals lines).head? ∧
      (parseClaudeFile f pr sid lines).lastMessage = (claudeTsVals lines).getLast? ∧
      (parseClaudeFile f pr sid lines).duration =
        max 0 (((claudeTsVals lines).getLast?).getD 0 - ((claudeTsVals lines).head?).getD 0)) ∧
    (∀ (f sid : String) (lines : List (Option CodexEvent)),
      (parseCodexJsonl f sid lines).duration = 0) ∧
    (∀ (f sid : String) (data : List CodexArrayMsg),
      (parseCodexArray f sid data).duration = 0) ∧
    (∀ (f sid : String) (lines : List (Option GeminiEvent)),
      (parseGeminiFile f sid lines).duration = 0 ∧
      (parseGeminiFile f sid lines).firstMessage = none ∧
      (parseGeminiFile f sid lines).lastMessage = none) := by
  refine ⟨?_, parseCodexJsonl_duration_zero,
    fun f sid data => (parseCodexArray_facts f sid data).2.2.2.2.2.2.2.2.2,
    parseGeminiFile_frame⟩
  intro f pr sid lines hne
  have hf : ((lines.filterMap id).foldl claudeStep (claudeInit f pr sid)).firstMessage
      = ((lines.filterMap id).filterMap ClaudeEvent.ts).head? :=
    claude_fold_firstMessage_none _ _ rfl
  have hl0 := claude_fold_lastMessage (lines.filterMap id) (claudeInit f pr sid)
  cases hvv : (lines.filterMap id).filterMap ClaudeEvent.ts with
  | nil => exact absurd hvv hne
  | cons x xs =>
    have hheadC : (claudeTsVals lines).head? = some x := by
      show ((lines.filterMap id).filterMap ClaudeEvent.ts).head? = some x
      rw [hvv]
      rfl
    have hlastBex : ∃ b, ((lines.filterMap id).filterMap ClaudeEvent.ts).getLast? = some b := by
      rw [hvv]
      exact ⟨(x :: xs).getLast (by simp), List.getLast?_eq_getLast _ (by simp)⟩
    obtain ⟨b, hlast⟩ := hlastBex
    have hlastC : (claudeTsVals lines).getLast? = some b := hlast
    have hfa : ((lines.filterMap id).foldl claudeStep (claudeInit f pr sid)).firstMessage
        = some x := by
      rw [hf]
      exact hheadC
    have hlb : ((lines.filterMap id).foldl claudeStep (claudeInit f pr sid)).lastMessage
        = some b := by
      rw [hl0, hlast]
    refine ⟨?_, ?_, ?_⟩
    · obtain ⟨c, d, hs⟩ := parseClaudeFile_shape f pr sid lines
      calc (parseClaudeFile f pr sid lines).firstMessage
          = ((lines.filterMap id).foldl claudeStep (claudeInit f pr sid)).firstMessage := by
            rw [hs]
        _ = (claudeTsVals lines).head? := hf
    · obtain ⟨c, d, hs⟩ := parseClaudeFile_shape f pr sid lines
      calc (parseClaudeFile f pr sid lines).lastMessage
          = ((lines.filterMap id).foldl claudeStep (claudeInit f pr sid)).lastMessage := by
            rw [hs]
        _ = some b := hlb
        _ = (claudeTsVals lines).getLast? := hlastC.symm
    · rw [hlastC, hheadC]
      exact parseClaudeFile_duration f pr sid lines x b hfa hlb

/-- Counterexample to C5 as stated: a Provider B `.jsonl` file with
timestamped events at epoch millis 1000 and 3000 is parsed to a record
with `firstMessage = 1000`, `lastMessage = 3000` but `duration = 0`,
not `max(0, 3000 − 1000) = 2000`. -/
theorem claim_C5_counterexample :
    (parseCodexJsonl "f" "s" exCodexTimed).firstMessage = some 1000 ∧
    (parseCodexJsonl "f" "s" exCodexTimed).lastMessage = some 3000 ∧
    (parseCodexJsonl "f" "s" exCodexTimed).duration ≠ max 0 (3000 - 1000) :=
  ⟨by decide, by decide, by decide⟩

/-- Witness for the Provider A part of amended C5 at a concrete
two-timestamp file. -/
theorem claim_C5_duration_amended_witness :
    claudeTsVals exClaudeTimed ≠ [] ∧
    ((parseClaudeFile "f" none "s" exClaudeTimed).firstMessage
        = (claudeTsVals exClaudeTimed).head? ∧
     (parseClaudeFile "f" none "s" exClaudeTimed).lastMessage
        = (claudeTsVals exClaudeTimed).getLast? ∧
     (parseClaudeFile "f" none "s" exClaudeTimed).duration =
       max 0 (((claudeTsVals exClaudeTimed).getLast?).getD 0
         - ((claudeTsVals exClaudeTimed).head?).getD 0)) :=
  ⟨by decide, claim_C5_duration_amended.1 "f" none "s" exClaudeTimed (by decide)⟩

/-! ### Recent-sessions lemmas and claim C7 -/

theorem recentLe_trans : ∀ (a b c : SessionStats),
    decide (recentKey b ≤ recentKey a) = true → decide (recentKey c ≤ recentKey b) = true →
    decide (recentKey c ≤ recentKey a) = true := by
  intro a b c hab hbc
  simp only [decide_eq_true_eq] at hab hbc ⊢
  exact le_trans hbc hab

theorem recentLe_total : ∀ (a b : SessionStats),
    (decide (recentKey b ≤ recentKey a) || decide (recentKey a ≤ recentKey b)) = true := by
  intro a b
  simp only [Bool.or_eq_true, decide_eq_true_eq]
  exact Int.le_total _ _

/-- Claim C7: the recent-sessions list (first 10 of each provider's
list pooled, re-sorted by `recentKey` descending, truncated to 20) never
exceeds 20 entries and, when all sessions have pairwise distinct sort
keys, is sorted strictly descending. -/
theorem claim_C7_recent_sessions (c x g : List SessionStats)
    (h : ((c ++ x ++ g).map recentKey).Nodup) :
    (recentSessions c x g).length ≤ 20 ∧
    (recentSessions c x g).Pairwise (fun a b => recentKey b < recentKey a) := by
  constructor
  · unfold recentSessions
    exact List.length_take_le 20 _
  · unfold recentSessions
    dsimp only
    have hsub : ((c.take 10 ++ x.take 10 ++ g.take 10).map recentKey).Sublist
        ((c ++ x ++ g).map recentKey) := by
      apply List.Sublist.map
      exact ((List.take_sublist 10 c).append (List.take_sublist 10 x)).append
        (List.take_sublist 10 g)
    have hnodup_pool : ((c.take 10 ++ x.take 10 ++ g.take 10).map recentKey).Nodup :=
      hsub.nodup h
    have hsorted := @List.sorted_mergeSort SessionStats
      (fun a b => decide (recentKey b ≤ recentKey a)) recentLe_trans recentLe_total
      (c.take 10 ++ x.take 10 ++ g.take 10)
    have hperm : (((c.take 10 ++ x.take 10 ++ g.take 10).mergeSort
        (fun a b => decide (recentKey b ≤ recentKey a))).map recentKey).Perm
        ((c.take 10 ++ x.take 10 ++ g.take 10).map recentKey) :=
      (List.mergeSort_perm _ _).map _
    have hnodup_sorted := hperm.nodup_iff.mpr hnodup_pool
    have hne : ((c.take 10 ++ x.take 10 ++ g.take 10).mergeSort
        (fun a b => decide (recentKey b ≤ recentKey a))).Pairwise
        (fun a b => recentKey a ≠ recentKey b) :=
      List.pairwise_map.mp hnodup_sorted
    have hge : ((c.take 10 ++ x.take 10 ++ g.take 10).mergeSort
        (fun a b => decide (recentKey b ≤ recentKey a))).Pairwise
        (fun a b => recentKey b ≤ recentKey a) :=
      hsorted.imp (fun hab => of_decide_eq_true hab)
    have hlt := (hne.and hge).imp
      (fun hab => lt_of_le_of_ne hab.2 (fun hh => hab.1 hh.symm))
    exact List.Pairwise.sublist (List.take_sublist 20 _) hlt

/-- Witness for C7 at three concrete provider lists with distinct
timestamps. -/
theorem claim_C7_recent_sessions_witness :
    (( [exSess 5, exSess 3] ++ [exSess 9] ++ ([] : List SessionStats)).map recentKey).Nodup ∧
    ((recentSessions [exSess 5, exSess 3] [exSess 9] []).length ≤ 20 ∧
     (recentSessions [exSess 5, exSess 3] [exSess 9] []).Pairwise
       (fun a b => recentKey b < recentKey a)) :=
  ⟨by decide, claim_C7_recent_sessions [exSess 5, exSess 3] [exSess 9] [] (by decide)⟩

/-! ### Claim C9: the debounced read path -/

/-- Claim C9 (amended): `getSessions` serves the in-process snapshot
when one exists and the last sync is within the debounce window;
otherwise, when the provider directory is missing it returns the empty
list without syncing, reading the store, or touching the snapshot; and
only when the directory exists does it run a fresh `syncProvider`, read
the provider's sessions from the store, and replace the snapshot. -/
theorem claim_C9_getSessions_amended (parse : String → SessionStats) (provider : String)
    (dirExists : Bool) (files : List FSMeta) (now : Int) (ps : ParserState) :
    (∀ snap, alookup ps.cache provider = some snap →
      now - ps.lastSyncTime < syncInterval →
      getSessionsM parse provider dirExists files now ps = (snap, ps)) ∧
    ((alookup ps.cache provider = none ∨ ¬(now - ps.lastSyncTime < syncInterval)) →
      dirExists = false →
      getSessionsM parse provider dirExists files now ps = ([], ps)) ∧
    ((alookup ps.cache provider = none ∨ ¬(now - ps.lastSyncTime < syncInterval)) →
      dirExists = true →
      getSessionsM parse provider dirExists files now ps =
        (storeGetSessions provider (syncProvider parse provider true files now ps.store).1,
         { ps with
            store := (syncProvider parse provider true files now ps.store).1,
            cache := cacheSet provider
              (storeGetSessions provider
                (syncProvider parse provider true files now ps.store).1)
              ps.cache })) := by
  refine ⟨?_, ?_, ?_⟩
  · intro snap hsnap hwin
    unfold getSessionsM
    rw [hsnap]
    dsimp only
    rw [if_pos hwin]
  · intro hmiss hdir
    subst hdir
    unfold getSessionsM
    cases hsnap : alookup ps.cache provider with
    | none => rfl
    | some snap =>
      rcases hmiss with hnone | hwin
      · rw [hsnap] at hnone
        exact absurd hnone (by simp)
      · dsimp only
        rw [if_neg hwin]
        rfl
  · intro hmiss hdir
    subst hdir
    unfold getSessionsM
    cases hsnap : alookup ps.cache provider with
    | none => rfl
    | some snap =>
      rcases hmiss with hnone | hwin
      · rw [hsnap] at hnone
        exact absurd hnone (by simp)
      · dsimp only
        rw [if_neg hwin]
        rfl

/-- Counterexample to C9 as stated: with no snapshot, a stale sync
stamp, a missing provider directory, and a store already holding a
session, `getSessions` returns the empty list and leaves the state
untouched instead of reading the store and refreshing the snapshot as
the claim's otherwise-branch requires. -/
theorem claim_C9_counterexample :
    getSessionsM exParseZero "claude" false [] 99999 exPS9 = ([], exPS9) ∧
    storeGetSessions "claude" exPS9.store = [exSessionClaude] ∧
    getSessionsM exParseZero "claude" false [] 99999 exPS9
      ≠ (storeGetSessions "claude"
            (syncProvider exParseZero "claude" false [] 99999 exPS9.store).1,
         { exPS9 with
            store := (syncProvider exParseZero "claude" false [] 99999 exPS9.store).1,
            cache := cacheSet "claude"
              (storeGetSessions "claude"
                (syncProvider exParseZero "claude" false [] 99999 exPS9.store).1)
              exPS9.cache }) := by
  have hA : getSessionsM exParseZero "claude" false [] 99999 exPS9 = ([], exPS9) := rfl
  have hstore : storeGetSessions "claude" exPS9.store = [exSessionClaude] := by
    simp [storeGetSessions, exPS9, exSessionClaude, claudeInit, List.mergeSort_singleton]
  refine ⟨hA, hstore, ?_⟩
  intro heq
  have h1 := congrArg Prod.fst (hA.symm.trans heq)
  have h2 : storeGetSessions "claude"
      (syncProvider exParseZero "claude" false [] 99999 exPS9.store).1
      = [exSessionClaude] := hstore
  rw [h2] at h1
  simp at h1

/-- Witness for amended C9: with a fresh snapshot and a recent sync,
`getSessions` returns the snapshot and leaves the state unchanged. -/
theorem claim_C9_amended_witness :
    alookup exPS9b.cache "claude" = some [exSessionClaude] ∧
    (1000 : Int) - exPS9b.lastSyncTime < syncInterval ∧
    getSessionsM exParseZero "claude" true [] 1000 exPS9b = ([exSessionClaude], exPS9b) :=
  ⟨rfl, by decide,
    (claim_C9_getSessions_amended exParseZero "claude" true [] 1000 exPS9b).1
      [exSessionClaude] rfl (by decide)⟩

/-! ### Store and sync lemmas -/

theorem getFileRecord_upsertSession (sess : SessionStats) (st : Store) (q : String) :
    getFileRecord (upsertSession sess st) q = getFileRecord st q := by
  unfold upsertSession getFileRecord
  split <;> rfl

theorem needsUpdate_congr (st1 st2 : Store) (p : String) (m sz : Int)
    (h : getFileRecord st1 p = getFileRecord st2 p) :
    needsUpdate st1 p m sz = needsUpdate st2 p m sz := by
  unfold needsUpdate
  rw [h]

theorem alookup_upsertFileRec_self (l : List (String × FileRec)) (p : String)
    (m sz now : Int) :
    alookup (l.map (fun kv =>
        if kv.1 = p then (kv.1, { kv.2 with mtime := m, size := sz, lastParsed := now })
        else kv)) p
      = (alookup l p).map (fun r => { r with mtime := m, size := sz, lastParsed := now }) :=
  alookup_map_update_self l p
    (fun r => { provider := r.provider, mtime := m, size := sz, lastParsed := now })

theorem getFileRecord_upsertFileRecord_ne (filePath provider : String)
    (mtime size now : Int) (st : Store) (q : String) (hq : q ≠ filePath) :
    getFileRecord (upsertFileRecord filePath provider mtime size now st) q
      = getFileRecord st q := by
  unfold upsertFileRecord getFileRecord
  split
  all_goals dsimp only
  · exact alookup_map_update_ne st.files filePath q
      (fun r => { provider := r.provider, mtime := mtime, size := size, lastParsed := now }) hq
  · exact alookup_append_ne st.files filePath q ⟨provider, mtime, size, now⟩ (Ne.symm hq)

theorem needsUpdate_upsert_self (filePath provider : String) (mtime size now : Int)
    (st : Store) :
    needsUpdate (upsertFileRecord filePath provider mtime size now st)
      filePath mtime size = false := by
  unfold needsUpdate getFileRecord upsertFileRecord
  cases hl : alookup st.files filePath with
  | some r =>
    dsimp only
    rw [alookup_upsertFileRec_self, hl]
    simp [bne]
  | none =>
    dsimp only
    rw [alookup_append_self _ _ _ hl]
    simp [bne]

theorem processFile_frame (parse : String → SessionStats) (provider : String) (now : Int)
    (acc : Store × Nat × Nat) (g : FSMeta) (q : String) (hq : q ≠ g.path) :
    getFileRecord ((processFile parse provider now acc g).1) q = getFileRecord acc.1 q := by
  unfold processFile
  dsimp only
  split
  · split
    · split
      all_goals
        dsimp only
        rw [getFileRecord_upsertFileRecord_ne _ _ _ _ _ _ _ hq, getFileRecord_upsertSession]
    · rfl
  · rfl

theorem processFile_of_good (parse : String → SessionStats) (provider : String) (now : Int)
    (acc : Store × Nat × Nat) (f : FSMeta) (h : goodFile parse acc.1 f) :
    processFile parse provider now acc f = acc := by
  unfold processFile
  dsimp only
  rcases h with h | h
  · rw [h]
    rfl
  · split
    · rw [h]
      rfl
    · rfl

theorem goodFile_processFile_self (parse : String → SessionStats) (provider : String)
    (now : Int) (acc : Store × Nat × Nat) (f : FSMeta) :
    goodFile parse ((processFile parse provider now acc f).1) f := by
  by_cases hn : needsUpdate acc.1 f.path f.mtime f.size = true
  · by_cases hm : (parse f.path).messages = 0
    · right
      exact hm
    · left
      unfold processFile
      dsimp only
      rw [if_pos hn, if_pos (Nat.pos_of_ne_zero hm)]
      split
      all_goals
        dsimp only
        exact needsUpdate_upsert_self _ _ _ _ _ _
  · left
    have hn2 : needsUpdate acc.1 f.path f.mtime f.size = false := by
      simpa using hn
    unfold processFile
    dsimp only
    rw [hn2]
    exact hn2

theorem goodFile_preserved (parse : String → SessionStats) (provider : String) (now : Int)
    (f g : FSMeta) (acc : Store × Nat × Nat) (hq : g.path ≠ f.path)
    (h : goodFile parse acc.1 f) :
    goodFile parse ((processFile parse provider now acc g).1) f := by
  rcases h with h | h
  · left
    rw [needsUpdate_congr _ _ _ _ _ (processFile_frame parse provider now acc g f.path
      (Ne.symm hq))]
    exact h
  · right
    exact h

theorem fold_preserves_good (parse : String → SessionStats) (provider : String) (now : Int)
    (f : FSMeta) (gs : List FSMeta) (acc : Store × Nat × Nat)
    (hall : ∀ g ∈ gs, g.path ≠ f.path) (h : goodFile parse acc.1 f) :
    goodFile parse ((gs.foldl (processFile parse provider now) acc)).1 f := by
  induction gs generalizing acc with
  | nil => exact h
  | cons g rest ih =>
    rw [List.foldl_cons]
    exact ih _ (fun g2 hg2 => hall g2 (List.mem_cons_of_mem _ hg2))
      (goodFile_preserved parse provider now f g acc (hall g (List.mem_cons_self _ _)) h)

theorem fold_establishes (parse : String → SessionStats) (provider : String) (now : Int)
    (files : List FSMeta) (acc : Store × Nat × Nat)
    (hnodup : (files.map FSMeta.path).Nodup) :
    ∀ f ∈ files, goodFile parse ((files.foldl (processFile parse provider now) acc)).1 f := by
  induction files generalizing acc with
  | nil =>
    intro f hf
    cases hf
  | cons g rest ih =>
    rw [List.map_cons] at hnodup
    have hcons := List.nodup_cons.mp hnodup
    intro f hf
    rw [List.foldl_cons]
    rcases List.mem_cons.mp hf with rfl | hfr
    · apply fold_preserves_good parse provider now f rest _ ?_
        (goodFile_processFile_self parse provider now acc f)
      intro g2 hg2 heq
      exact hcons.1 (List.mem_map.mpr ⟨g2, hg2, heq⟩)
    · exact ih _ hcons.2 f hfr

theorem fold_of_good (parse : String → SessionStats) (provider : String) (now : Int)
    (files : List FSMeta) (st : Store) (a u : Nat)
    (h : ∀ f ∈ files, goodFile parse st f) :
    files.foldl (processFile parse provider now) (st, a, u) = (st, a, u) := by
  induction files with
  | nil => rfl
  | cons g rest ih =>
    rw [List.foldl_cons,
      processFile_of_good parse provider now (st, a, u) g (h g (List.mem_cons_self _ _))]
    exact ih (fun f hf => h f (List.mem_cons_of_mem _ hf))

/-! ### Cleanup lemmas -/

theorem cleanupLoop_files_subset (ex tracked : List String) (st : Store) (c : Nat)
    (q : String) (r : FileRec) (h : (q, r) ∈ (cleanupLoop ex tracked st c).1.files) :
    (q, r) ∈ st.files := by
  induction tracked generalizing st c with
  | nil => exact h
  | cons p rest ih =>
    unfold cleanupLoop at h
    by_cases hp : p ∈ ex
    · rw [if_pos hp] at h
      exact ih _ _ h
    · rw [if_neg hp] at h
      have h2 := ih _ _ h
      exact (List.mem_filter.mp h2).1

theorem cleanupLoop_removes (ex tracked : List String) (st : Store) (c : Nat)
    (q : String) (hq : q ∈ tracked) (hnx : q ∉ ex) (r : FileRec) :
    (q, r) ∉ (cleanupLoop ex tracked st c).1.files := by
  induction tracked generalizing st c with
  | nil => cases hq
  | cons p rest ih =>
    unfold cleanupLoop
    rcases List.mem_cons.mp hq with rfl | hqr
    · rw [if_neg hnx]
      intro hmem
      have hsub := cleanupLoop_files_subset _ _ _ _ _ _ hmem
      exact mem_filter_key_ne _ _ _ hsub
    · by_cases hp : p ∈ ex
      · rw [if_pos hp]
        exact ih _ _ hqr
      · rw [if_neg hp]
        exact ih _ _ hqr

theorem cleanupLoop_getFileRecord_mem (ex tracked : List String) (st : Store) (c : Nat)
    (p : String) (hp : p ∈ ex) :
    getFileRecord (cleanupLoop ex tracked st c).1 p = getFileRecord st p := by
  induction tracked generalizing st c with
  | nil => rfl
  | cons q rest ih =>
    unfold cleanupLoop
    by_cases hq : q ∈ ex
    · rw [if_pos hq]
      exact ih _ _
    · rw [if_neg hq]
      rw [ih _ _]
      show alookup (st.files.filter (fun kv => kv.1 ≠ q)) p = alookup st.files p
      exact alookup_filter_ne _ _ _ (fun hh => hq (hh ▸ hp))

theorem cleanupLoop_noop (ex tracked : List String) (st : Store) (c : Nat)
    (h : ∀ p ∈ tracked, p ∈ ex) : cleanupLoop ex tracked st c = (st, c) := by
  induction tracked with
  | nil => rfl
  | cons p rest ih =>
    unfold cleanupLoop
    rw [if_pos (h p (List.mem_cons_self _ _))]
    exact ih (fun q hq => h q (List.mem_cons_of_mem _ hq))

theorem mem_getTrackedFiles (p provider : String) (st : Store) :
    p ∈ getTrackedFiles provider st ↔
      ∃ r, (p, r) ∈ st.files ∧ r.provider = provider := by
  unfold getTrackedFiles
  constructor
  · intro hmem
    obtain ⟨kv, hkv, hkp⟩ := List.mem_map.mp hmem
    obtain ⟨k, v⟩ := kv
    obtain ⟨hin, hpr⟩ := List.mem_filter.mp hkv
    subst hkp
    exact ⟨v, hin, of_decide_eq_true hpr⟩
  · rintro ⟨r, hin, hprov⟩
    exact List.mem_map.mpr ⟨(p, r), List.mem_filter.mpr ⟨hin, by simp [hprov]⟩, rfl⟩

theorem cleanup_tracked_subset (provider : String) (ex : List String) (st : Store) :
    ∀ p ∈ getTrackedFiles provider (cleanupDeletedFiles provider ex st).1, p ∈ ex := by
  intro p hp
  obtain ⟨r, hin, hprov⟩ := (mem_getTrackedFiles _ _ _).mp hp
  have hin0 : (p, r) ∈ st.files := cleanupLoop_files_subset _ _ _ _ _ _ hin
  by_contra hnx
  exact cleanupLoop_removes ex (getTrackedFiles provider st) st 0 p
    ((mem_getTrackedFiles _ _ _).mpr ⟨r, hin0, hprov⟩) hnx r hin

/-! ### syncProvider lemmas and claims C4, C6 -/

theorem syncProvider_true_eq (parse : String → SessionStats) (provider : String)
    (files : List FSMeta) (now : Int) (st : Store) :
    syncProvider parse provider true files now st =
      ((cleanupDeletedFiles provider (files.map FSMeta.path)
          ((files.foldl (processFile parse provider now) (st, 0, 0)).1)).1,
       ⟨(files.foldl (processFile parse provider now) (st, 0, 0)).2.1,
        (files.foldl (processFile parse provider now) (st, 0, 0)).2.2,
        (cleanupDeletedFiles provider (files.map FSMeta.path)
          ((files.foldl (processFile parse provider now) (st, 0, 0)).1)).2⟩) := rfl

theorem sync_again_noop (parse : String → SessionStats) (provider : String)
    (files : List FSMeta) (now2 : Int) (st1 : Store)
    (hgood : ∀ f ∈ files, goodFile parse st1 f)
    (htr : ∀ p ∈ getTrackedFiles provider st1, p ∈ files.map FSMeta.path) :
    syncProvider parse provider true files now2 st1 = (st1, ⟨0, 0, 0⟩) := by
  rw [syncProvider_true_eq]
  rw [fold_of_good parse provider now2 files st1 0 0 hgood]
  dsimp only
  rw [show cleanupDeletedFiles provider (files.map FSMeta.path) st1 = (st1, 0) from by
    unfold cleanupDeletedFiles
    exact cleanupLoop_noop _ _ _ _ htr]

/-- Claim C4: with no filesystem changes between the calls, a second
`syncProvider` reports `{added 0, updated 0, deleted 0}` and leaves the
store exactly as the first call left it. -/
theorem claim_C4_idempotent_resync (parse : String → SessionStats) (provider : String)
    (dirExists : Bool) (files : List FSMeta) (now now2 : Int) (st : Store)
    (h : (files.map FSMeta.path).Nodup) :
    syncProvider parse provider dirExists files now2
        (syncProvider parse provider dirExists files now st).1
      = ((syncProvider parse provider dirExists files now st).1, ⟨0, 0, 0⟩) := by
  cases dirExists with
  | false => rfl
  | true =>
    have hgood_mid :=
      fold_establishes parse provider now files (st, 0, 0) h
    have hgood1 : ∀ f ∈ files,
        goodFile parse (syncProvider parse provider true files now st).1 f := by
      intro f hf
      have hmem : f.path ∈ files.map FSMeta.path := List.mem_map.mpr ⟨f, hf, rfl⟩
      rcases hgood_mid f hf with hg | hg
      · left
        have hrec : getFileRecord (syncProvider parse provider true files now st).1 f.path
            = getFileRecord
                ((files.foldl (processFile parse provider now) (st, 0, 0)).1) f.path := by
          rw [syncProvider_true_eq]
          dsimp only
          unfold cleanupDeletedFiles
          exact cleanupLoop_getFileRecord_mem _ _ _ _ _ hmem
        rw [needsUpdate_congr _ _ _ _ _ hrec]
        exact hg
      · right
        exact hg
    have htr1 : ∀ p ∈ getTrackedFiles provider (syncProvider parse provider true files now st).1,
        p ∈ files.map FSMeta.path := by
      intro p hp
      exact cleanup_tracked_subset provider (files.map FSMeta.path) _ p hp
    exact sync_again_noop parse provider files now2 _ hgood1 htr1

/-- Witness for C4 at a concrete parser, file list and empty store. -/
theorem claim_C4_idempotent_resync_witness :
    (exFiles.map FSMeta.path).Nodup ∧
    syncProvider exParse "claude" true exFiles 7
        (syncProvider exParse "claude" true exFiles 5 exStore0).1
      = ((syncProvider exParse "claude" true exFiles 5 exStore0).1, ⟨0, 0, 0⟩) :=
  ⟨by decide,
    claim_C4_idempotent_resync exParse "claude" true exFiles 5 7 exStore0 (by decide)⟩

/-- Claim C6: a candidate whose parse yields zero messages leaves the
store (sessions and tracking records alike) and the sync counters
completely unchanged. -/
theorem claim_C6_zero_message_skip (parse : String → SessionStats) (provider : String)
    (now : Int) (st : Store) (a u : Nat) (f : FSMeta)
    (h : (parse f.path).messages = 0) :
    processFile parse provider now (st, a, u) f = (st, a, u) :=
  processFile_of_good parse provider now (st, a, u) f (Or.inr h)

/-- Witness for C6 at a concrete zero-message parser and empty store. -/
theorem claim_C6_zero_message_skip_witness :
    (exParseZero "/a").messages = 0 ∧
    processFile exParseZero "claude" 5 (exStore0, 0, 0) ⟨"/a", 1, 2⟩ = (exStore0, 0, 0) :=
  ⟨by decide,
    claim_C6_zero_message_skip exParseZero "claude" 5 exStore0 0 0 ⟨"/a", 1, 2⟩ (by decide)⟩
